import Mathlib

/-!
Verification of the CQ-code message model and codec of the qq-bot-api
repository (package `cqcode`, file `cqcode/cqcode.go`), as a shallow
embedding in Lean 4.

Modelling conventions, shared by all definitions below:

* Go strings are modelled as Lean `String`; Go's byte indexing is modelled
  as character indexing.  Every slice/index taken by the source code is at
  an ASCII delimiter (`[CQ:`, `]`, `/`, quote characters), where byte and
  character positions coincide, so the translation is faithful for every
  operation the source performs.
* `map[string]interface{}` values of a `MessageSegment` are modelled as an
  association list `List (String × String)` kept in insertion order, with
  Go's map-assignment semantics (`mapInsert` updates an existing key in
  place, otherwise appends).  Every segment handled by the properties below
  is produced by `ParseCQCode`, whose data values are always strings, so
  the value type `String` is exact.  Go's map iteration order is
  unspecified; the model fixes it to insertion order (one admissible
  execution), and theorems depending on field order say so.
* Fallible Go functions returning `error` are modelled by pairing the
  result with `Option String` (`none` = nil error), keeping the error
  strings the source constructs.
-/

set_option maxRecDepth 4000
set_option linter.dupNamespace false

/-! ## List-level string utilities (models of the `strings` package calls) -/

/-- Fueled worker for `goReplaceAll`: leftmost, non-overlapping replacement of
`pat` by `rep`, one scan step per unit of fuel.  With `fuel ≥ s.length` and a
nonempty `pat` the fuel never runs out. -/
def replaceAux (pat rep : List Char) : Nat → List Char → List Char
  | _, [] => []
  | 0, s => s
  | fuel + 1, c :: cs =>
    if pat.isPrefixOf (c :: cs) then
      rep ++ replaceAux pat rep fuel ((c :: cs).drop pat.length)
    else
      c :: replaceAux pat rep fuel cs

/-- Model of Go `strings.Replace(s, pat, rep, -1)` for a nonempty `pat` (every
pattern used by the source is nonempty; an empty `pat` is returned unchanged). -/
def goReplaceAll (pat rep s : List Char) : List Char :=
  if pat = [] then s else replaceAux pat rep s.length s

/-- Model of Go `strings.Split(s, sep)` for a one-character separator (the
source only ever splits on `","` and `"="`). -/
def splitOnChar (sep : Char) : List Char → List (List Char)
  | [] => [[]]
  | c :: cs =>
    if c = sep then
      [] :: splitOnChar sep cs
    else
      match splitOnChar sep cs with
      | [] => [[c]]
      | p :: ps => (c :: p) :: ps

/-- Model of Go `strings.Join(parts, sep)` for a one-character separator. -/
def joinChar (sep : Char) : List (List Char) → List Char
  | [] => []
  | [p] => p
  | p :: q :: ps => p ++ sep :: joinChar sep (q :: ps)

/-- Index of the first occurrence of character `c`, if any. -/
def findCharIdx (c : Char) : List Char → Option Nat
  | [] => none
  | d :: ds => if d = c then some 0 else (findCharIdx c ds).map (· + 1)

/-- Index of the first occurrence of the substring `pat`, if any (model of the
leftmost-match rule of `regexp`'s literal prefix `[CQ:`). -/
def findSub (pat : List Char) : List Char → Option Nat
  | [] => if pat.isPrefixOf ([] : List Char) then some 0 else none
  | c :: cs => if pat.isPrefixOf (c :: cs) then some 0 else (findSub pat cs).map (· + 1)

/-- Model of Go `strings.Trim(s, cutset)`: remove leading and trailing
characters belonging to `cutset`. -/
def goTrim (s cutset : String) : String :=
  String.mk (((s.data.dropWhile (cutset.data.contains ·)).reverse.dropWhile
    (cutset.data.contains ·)).reverse)

/-- String-level wrapper of `goReplaceAll`, argument order of
`strings.Replace(s, old, new, -1)`. -/
def replaceStr (s old new : String) : String :=
  String.mk (goReplaceAll old.data new.data s.data)

/-! ## Escaping primitives (`EncodeCQText`, `DecodeCQText`,
`EncodeCQCodeText`, `DecodeCQCodeText`) -/

/-- `EncodeCQText`: escape `&`, `[`, `]` in a plain-text run, in source order. -/
def EncodeCQText (str : String) : String :=
  let str := replaceStr str "&" "&amp;"
  let str := replaceStr str "[" "&#91;"
  let str := replaceStr str "]" "&#93;"
  str

/-- `DecodeCQText`: unescape `&#93;`, `&#91;`, `&amp;`, in source order. -/
def DecodeCQText (str : String) : String :=
  let str := replaceStr str "&#93;" "]"
  let str := replaceStr str "&#91;" "["
  let str := replaceStr str "&amp;" "&"
  str

/-- `EncodeCQCodeText`: escape `&`, `[`, `]`, `,` in a marker value. -/
def EncodeCQCodeText (str : String) : String :=
  let str := replaceStr str "&" "&amp;"
  let str := replaceStr str "[" "&#91;"
  let str := replaceStr str "]" "&#93;"
  let str := replaceStr str "," "&#44;"
  str

/-- `DecodeCQCodeText`: unescape `&#44;`, `&#93;`, `&#91;`, `&amp;`. -/
def DecodeCQCodeText (str : String) : String :=
  let str := replaceStr str "&#44;" ","
  let str := replaceStr str "&#93;" "]"
  let str := replaceStr str "&#91;" "["
  let str := replaceStr str "&amp;" "&"
  str

/-! ## The element model -/

/-- `MessageSegment`: `{Type, Data}`; `Data` is the insertion-ordered model of
the Go map (see the header comment). -/
structure MessageSegment where
  type : String
  data : List (String × String)
deriving DecidableEq

/-- Plain text (`Text`, tag `cq:"text"`). -/
structure Text where
  Text : String
deriving DecidableEq

/-- Mention (`At`, tag `cq:"qq"`). -/
structure At where
  QQ : String
deriving DecidableEq

/-- QQ face (`Face`, tag `cq:"id"`). -/
structure Face where
  FaceID : Int
deriving DecidableEq

/-- Emoji (`Emoji`, tag `cq:"id"`). -/
structure Emoji where
  EmojiID : Int
deriving DecidableEq

/-- `Bface`, tag `cq:"id"`. -/
structure Bface where
  BfaceID : Int
deriving DecidableEq

/-- `Sface`, tag `cq:"id"`. -/
structure Sface where
  SfaceID : Int
deriving DecidableEq

/-- `Image`, tags `cq:"file"`, `cq:"url"`. -/
structure Image where
  FileID : String
  URL : String
deriving DecidableEq

/-- `Record`, tags `cq:"file"`, `cq:"magic"`, `cq:"url"`. -/
structure Record where
  FileID : String
  Magic : Bool
  URL : String
deriving DecidableEq

/-- `Rps`, tag `cq:"type"`. -/
structure Rps where
  Type_ : Int
deriving DecidableEq

/-- `Dice`, tag `cq:"type"`. -/
structure Dice where
  Type_ : Int
deriving DecidableEq

/-- `Shake` (no fields). -/
structure Shake where
deriving DecidableEq

/-- `Music`, tags `type`, `id`, `url`, `audio`, `title`, `content`, `image`. -/
structure Music where
  Type_ : String
  MusicID : String
  ShareURL : String
  AudioURL : String
  Title : String
  Content : String
  Image : String
deriving DecidableEq

/-- `Share`, tags `url`, `title`, `content`, `image`. -/
structure Share where
  URL : String
  Title : String
  Content : String
  Image : String
deriving DecidableEq

/-- `Location` (no fields). -/
structure Location where
deriving DecidableEq

/-- `Show` (no fields). -/
structure ShowMedia where
deriving DecidableEq

/-- `Sign` (no fields). -/
structure Sign where
deriving DecidableEq

/-- `Rich` (no fields). -/
structure Rich where
deriving DecidableEq

/-- The `Media` interface: the closed set of element variants of the source,
plus the generic `MessageSegment` (which also implements `Media` in Go). -/
inductive Media where
  | text : Text → Media
  | at_ : At → Media
  | face : Face → Media
  | emoji : Emoji → Media
  | bface : Bface → Media
  | sface : Sface → Media
  | image : Image → Media
  | record : Record → Media
  | rps : Rps → Media
  | dice : Dice → Media
  | shake : Shake → Media
  | music : Music → Media
  | share : Share → Media
  | location : Location → Media
  | show_ : ShowMedia → Media
  | sign : Sign → Media
  | rich : Rich → Media
  | segment : MessageSegment → Media
deriving DecidableEq

/-- `FunctionName` of each `Media` implementation. -/
def Media.FunctionName : Media → String
  | .text _ => "text"
  | .at_ _ => "at"
  | .face _ => "face"
  | .emoji _ => "emoji"
  | .bface _ => "bface"
  | .sface _ => "sface"
  | .image _ => "image"
  | .record _ => "record"
  | .rps _ => "rps"
  | .dice _ => "dice"
  | .shake _ => "shake"
  | .music _ => "music"
  | .share _ => "share"
  | .location _ => "location"
  | .show_ _ => "show"
  | .sign _ => "sign"
  | .rich _ => "rich"
  | .segment seg => seg.type

/-- A `Message` is an ordered sequence of `Media`. -/
def Message := List Media
deriving DecidableEq

/-- `Message.Append`: appends media to `m`, always returning a nil error. -/
def Message.Append (m : Message) (media : Media) : Message × Option String :=
  (List.append m [media], none)

/-! ## Go map and weak-typing primitives used by `mapstructure` decoding -/

/-- Lookup in the insertion-ordered map model. -/
def assocGet (data : List (String × String)) (key : String) : Option String :=
  match data with
  | [] => none
  | (k, v) :: rest => if k = key then some v else assocGet rest key

/-- Go map assignment `data[k] = v`: update an existing key in place,
otherwise append (insertion order, see header comment). -/
def mapInsert (data : List (String × String)) (k v : String) : List (String × String) :=
  if data.any (fun kv => kv.1 = k) then
    data.map (fun kv => if kv.1 = k then (k, v) else kv)
  else
    data ++ [(k, v)]

/-- Digit value of a character in the given base, if valid. -/
def digitVal (base : Nat) (c : Char) : Option Nat :=
  let v : Nat :=
    if '0' ≤ c ∧ c ≤ '9' then c.toNat - '0'.toNat
    else if 'a' ≤ c ∧ c ≤ 'f' then c.toNat - 'a'.toNat + 10
    else if 'A' ≤ c ∧ c ≤ 'F' then c.toNat - 'A'.toNat + 10
    else 99
  if v < base then some v else none

/-- Parse an unsigned digit run in the given base. -/
def parseDigits (base : Nat) : List Char → Option Nat
  | [] => none
  | l => l.foldl (fun acc c =>
      match acc, digitVal base c with
      | some n, some d => some (n * base + d)
      | _, _ => none) (some 0)

/-- Model of Go `strconv.ParseInt(s, 0, 64)` as used by `mapstructure`'s
weakly-typed decode: optional sign, then base prefix detection (`0x`/`0X` hex,
`0b`/`0B` binary, `0o`/`0O` octal, a bare leading `0` octal, otherwise
decimal).  Digit-separating underscores and the 64-bit range check are not
modelled: no value the verified properties exercise uses them. -/
def goParseIntBase0 (s : String) : Option Int :=
  let withSign : List Char → Option Int := fun mag =>
    match mag with
    | [] => none
    | ['0'] => some 0
    | '0' :: 'x' :: rest => (parseDigits 16 rest).map Int.ofNat
    | '0' :: 'X' :: rest => (parseDigits 16 rest).map Int.ofNat
    | '0' :: 'b' :: rest => (parseDigits 2 rest).map Int.ofNat
    | '0' :: 'B' :: rest => (parseDigits 2 rest).map Int.ofNat
    | '0' :: 'o' :: rest => (parseDigits 8 rest).map Int.ofNat
    | '0' :: 'O' :: rest => (parseDigits 8 rest).map Int.ofNat
    | '0' :: rest => (parseDigits 8 rest).map Int.ofNat
    | l => (parseDigits 10 l).map Int.ofNat
  match s.data with
  | '+' :: rest => withSign rest
  | '-' :: rest => (withSign rest).map Int.neg
  | l => withSign l

/-- Model of Go `strconv.ParseBool`. -/
def goParseBool (s : String) : Option Bool :=
  if s = "1" ∨ s = "t" ∨ s = "T" ∨ s = "true" ∨ s = "TRUE" ∨ s = "True" then some true
  else if s = "0" ∨ s = "f" ∨ s = "F" ∨ s = "false" ∨ s = "FALSE" ∨ s = "False" then some false
  else none

/-- Weakly-typed decode of one string field: a missing key leaves the current
value (`mapstructure` only sets fields whose key is present). -/
def decodeStrField (data : List (String × String)) (key : String) (cur : String) : String :=
  (assocGet data key).getD cur

/-- Weakly-typed decode of one int field (`WeaklyTypedInput`: an empty string
counts as `"0"`; an unparsable string records an error and leaves the field). -/
def decodeIntField (data : List (String × String)) (key : String) (cur : Int) :
    Int × List String :=
  match assocGet data key with
  | none => (cur, [])
  | some v =>
    match goParseIntBase0 (if v = "" then "0" else v) with
    | some n => (n, [])
    | none => (cur, ["cannot parse value as int"])

/-- Weakly-typed decode of one bool field (`WeaklyTypedInput`: an empty string
counts as false; an unparsable string records an error and leaves the field). -/
def decodeBoolField (data : List (String × String)) (key : String) (cur : Bool) :
    Bool × List String :=
  match assocGet data key with
  | none => (cur, [])
  | some v =>
    match goParseBool v with
    | some b => (b, [])
    | none => if v = "" then (false, []) else (cur, ["cannot parse value as bool"])

/-- Collected field errors to a single `error` value (`mapstructure` joins all
field errors into one error; only presence and the source-written prefixes
matter to the verified properties, so the join separator is a newline). -/
def joinErrs (es : List String) : Option String :=
  match es with
  | [] => none
  | e :: rest => some (rest.foldl (fun acc x => acc ++ "\n" ++ x) e)

/-- Model of `decode(seg.Data, media)`: `mapstructure` with `TagName: "cq"` and
`WeaklyTypedInput: true` copies each datum whose key equals a field's `cq` tag
into that field, ignores unknown keys, leaves missing fields at their current
value, and reports per-field conversion errors.  One case per element variant,
fields in declaration order. -/
def decodeInto (data : List (String × String)) : Media → Media × Option String
  | .text t => (.text ⟨decodeStrField data "text" t.Text⟩, none)
  | .at_ a => (.at_ ⟨decodeStrField data "qq" a.QQ⟩, none)
  | .face f =>
    let (n, es) := decodeIntField data "id" f.FaceID
    (.face ⟨n⟩, joinErrs es)
  | .emoji e =>
    let (n, es) := decodeIntField data "id" e.EmojiID
    (.emoji ⟨n⟩, joinErrs es)
  | .bface b =>
    let (n, es) := decodeIntField data "id" b.BfaceID
    (.bface ⟨n⟩, joinErrs es)
  | .sface s =>
    let (n, es) := decodeIntField data "id" s.SfaceID
    (.sface ⟨n⟩, joinErrs es)
  | .image i =>
    (.image ⟨decodeStrField data "file" i.FileID, decodeStrField data "url" i.URL⟩, none)
  | .record r =>
    let file := decodeStrField data "file" r.FileID
    let (magic, es) := decodeBoolField data "magic" r.Magic
    let url := decodeStrField data "url" r.URL
    (.record ⟨file, magic, url⟩, joinErrs es)
  | .rps r =>
    let (n, es) := decodeIntField data "type" r.Type_
    (.rps ⟨n⟩, joinErrs es)
  | .dice d =>
    let (n, es) := decodeIntField data "type" d.Type_
    (.dice ⟨n⟩, joinErrs es)
  | .shake _ => (.shake ⟨⟩, none)
  | .music m =>
    (.music ⟨decodeStrField data "type" m.Type_, decodeStrField data "id" m.MusicID,
      decodeStrField data "url" m.ShareURL, decodeStrField data "audio" m.AudioURL,
      decodeStrField data "title" m.Title, decodeStrField data "content" m.Content,
      decodeStrField data "image" m.Image⟩, none)
  | .share s =>
    (.share ⟨decodeStrField data "url" s.URL, decodeStrField data "title" s.Title,
      decodeStrField data "content" s.Content, decodeStrField data "image" s.Image⟩, none)
  | .location _ => (.location ⟨⟩, none)
  | .show_ _ => (.show_ ⟨⟩, none)
  | .sign _ => (.sign ⟨⟩, none)
  | .rich _ => (.rich ⟨⟩, none)
  | .segment _ => (.segment ⟨"", data⟩, none)

/-- `errors.Wrap(err, "wrong media type")` / `errors.New("wrong media type")`
as produced by `MessageSegment.ParseMedia` on a kind mismatch. -/
def wrapWrongMediaType : Option String → Option String
  | some e => some ("wrong media type: " ++ e)
  | none => some "wrong media type"

/-- `MessageSegment.ParseMedia`: a `*MessageSegment` target receives a full
copy; any other target is field-decoded from `seg.Data` and, if the segment's
type differs from the target's function name, the (possibly nil) decode error
is replaced/wrapped with "wrong media type".  Decoded fields are kept either
way. -/
def MessageSegment.ParseMedia (seg : MessageSegment) (media : Media) :
    Media × Option String :=
  match media with
  | .segment _ => (.segment seg, none)
  | m =>
    let r := decodeInto seg.data m
    if seg.type = m.FunctionName then r else (r.1, wrapWrongMediaType r.2)

/-- The well-formedness test of `ParseCQCode`: the source rejects the string
when `l <= 5 || str[:4] != "[CQ:" || str[len(str)-1:] != "]"`; this predicate
is that condition negated. -/
def wellFormedCQ (str : String) : Bool :=
  decide (5 < str.length) && decide (str.data.take 4 = "[CQ:".data)
    && decide (str.data.getLast? = some ']')

/-- Build the segment data map from the `key=value` parts of a marker body:
split each part on `"="`, key = first piece, value = remaining pieces re-joined
with `"="` and unescaped with `DecodeCQCodeText`.  (The source's
`len(kvstrs) == 0` guard is dead: `strings.Split` never returns an empty
slice.) -/
def buildStep (data : List (String × String)) (part : List Char) : List (String × String) :=
  let kvstrs := splitOnChar '=' part
  mapInsert data (String.mk kvstrs.headI)
    (DecodeCQCodeText (String.mk (joinChar '=' kvstrs.tail)))

/-- The loop over the `key=value` parts. -/
def buildData (parts : List (List Char)) : List (String × String) :=
  parts.foldl buildStep []

/-- `ParseCQCode`: parse a CQ-encoded string into the given target media.  A
non-well-formed string decodes as escaped plain text into a `*Text` or
`*MessageSegment` target and fails with "invalid cqcode" otherwise; a
well-formed `[CQ:kind,k=v,...]` string is split into an intermediate segment
which is then `ParseMedia`-decoded into the target. -/
def ParseCQCode (str : String) (media : Media) : Media × Option String :=
  if wellFormedCQ str = false then
    match media with
    | .text _ => (.text ⟨DecodeCQText str⟩, none)
    | .segment _ => (.segment ⟨"text", [("text", DecodeCQText str)]⟩, none)
    | m => (m, some "invalid cqcode")
  else
    let inner := (str.data.drop 4).dropLast
    let strs := splitOnChar ',' inner
    let ms : MessageSegment := ⟨String.mk strs.headI, buildData strs.tail⟩
    ms.ParseMedia media

/-- `NewMessageSegmentFromCQCode`: parse a CQCode string into a fresh segment. -/
def NewMessageSegmentFromCQCode (str : String) : MessageSegment × Option String :=
  match ParseCQCode str (.segment ⟨"", []⟩) with
  | (.segment seg, err) => (seg, err)
  | (_, err) => (⟨"", []⟩, err)

/-! ## Formatting (`FormatCQCode`, `CQString`) -/

/-- `fmt.Sprint` of a bool field value. -/
def sprintBool (b : Bool) : String := if b then "true" else "false"

/-- `fmt.Sprintf("[CQ:%s]", strings.Join(type :: fields, ","))`. -/
def fmtMarker (ty : String) (fields : List String) : String :=
  "[CQ:" ++ String.mk (joinChar ',' ((ty :: fields).map String.data)) ++ "]"

/-- One `key=EncodeCQCodeText(value)` item of a marker body. -/
def renderField (kv : String × String) : String :=
  kv.1 ++ "=" ++ EncodeCQCodeText kv.2

/-- `FormatCQCode`: a text-typed generic segment prints its (escaped) `text`
datum, or `""` when that datum is missing; any other generic segment prints
`[CQ:type,k=escaped(v),...]` over its data (insertion order, see header
comment); a `*Text` prints its escaped text; every other variant prints
`[CQ:name,tag=escaped(print(field)),...]` with fields in declaration order. -/
def FormatCQCode : Media → String
  | .segment seg =>
    if seg.type = "text" then
      match assocGet seg.data "text" with
      | none => ""
      | some t => EncodeCQText t
    else
      fmtMarker seg.type (seg.data.map renderField)
  | .text t => EncodeCQText t.Text
  | .at_ a => fmtMarker "at" [renderField ("qq", a.QQ)]
  | .face f => fmtMarker "face" [renderField ("id", toString f.FaceID)]
  | .emoji e => fmtMarker "emoji" [renderField ("id", toString e.EmojiID)]
  | .bface b => fmtMarker "bface" [renderField ("id", toString b.BfaceID)]
  | .sface s => fmtMarker "sface" [renderField ("id", toString s.SfaceID)]
  | .image i => fmtMarker "image" [renderField ("file", i.FileID), renderField ("url", i.URL)]
  | .record r => fmtMarker "record" [renderField ("file", r.FileID),
      renderField ("magic", sprintBool r.Magic), renderField ("url", r.URL)]
  | .rps r => fmtMarker "rps" [renderField ("type", toString r.Type_)]
  | .dice d => fmtMarker "dice" [renderField ("type", toString d.Type_)]
  | .shake _ => fmtMarker "shake" []
  | .music m => fmtMarker "music" [renderField ("type", m.Type_),
      renderField ("id", m.MusicID), renderField ("url", m.ShareURL),
      renderField ("audio", m.AudioURL), renderField ("title", m.Title),
      renderField ("content", m.Content), renderField ("image", m.Image)]
  | .share s => fmtMarker "share" [renderField ("url", s.URL),
      renderField ("title", s.Title), renderField ("content", s.Content),
      renderField ("image", s.Image)]
  | .location _ => fmtMarker "location" []
  | .show_ _ => fmtMarker "show" []
  | .sign _ => fmtMarker "sign" []
  | .rich _ => fmtMarker "rich" []

/-- `Message.CQString`: concatenate the CQ codes of all media, in order. -/
def Message.CQString (m : Message) : String :=
  m.foldl (fun str media => str ++ FormatCQCode media) ""

/-! ## String-to-Message scanning and segment dispatch -/

/-- A plain-text gap segment of the string scan (the source puts the gap
through `DecodeCQCodeText`). -/
def textSeg (ts : List Char) : MessageSegment :=
  ⟨"text", [("text", DecodeCQCodeText (String.mk ts))]⟩

/-- Trailing text after the last marker match. -/
def trailingText (s : List Char) : List MessageSegment :=
  if s = [] then [] else [textSeg s]

/-- Fueled scan modelling `regexp.MustCompile("\\[CQ:[\\s\\S]*?\\]")
.FindAllStringSubmatchIndex` and the loop of
`ParseMessageSegmentsFromString`: each leftmost-first, non-greedy match runs
from an occurrence of `[CQ:` to the first `]` after it; the gap before a match
becomes a text segment, the match is parsed with
`NewMessageSegmentFromCQCode` (skipped on error, which that call never
returns), and scanning resumes after the match.  Each step consumes at least
five characters, so `fuel = s.length` never runs out. -/
def scanSegs : Nat → List Char → List MessageSegment
  | 0, s => trailingText s
  | fuel + 1, s =>
    match findSub "[CQ:".data s with
    | none => trailingText s
    | some p =>
      match findCharIdx ']' (s.drop (p + 4)) with
      | none => trailingText s
      | some q =>
        let stop := p + 4 + q + 1
        (if 0 < p then [textSeg (s.take p)] else []) ++
          (match NewMessageSegmentFromCQCode (String.mk ((s.take stop).drop p)) with
            | (seg, none) => [seg]
            | (_, some _) => []) ++
          scanSegs fuel (s.drop stop)

/-- `ParseMessageSegmentsFromString` (always returns a nil error). -/
def ParseMessageSegmentsFromString (str : String) : List MessageSegment × Option String :=
  (scanSegs str.data.length str.data, none)

/-- One arm of the kind-dispatch switch of `ParseMessageFromMessageSegments`:
decode the segment into the zero value of the variant selected by its type
(the switch ignores the `ParseMedia` error and appends the decoded value
regardless), with an unrecognized type preserved as the segment itself. -/
def mediaFromSegment (seg : MessageSegment) : Media :=
  if seg.type = "text" then (seg.ParseMedia (.text ⟨""⟩)).1
  else if seg.type = "at" then (seg.ParseMedia (.at_ ⟨""⟩)).1
  else if seg.type = "face" then (seg.ParseMedia (.face ⟨0⟩)).1
  else if seg.type = "emoji" then (seg.ParseMedia (.emoji ⟨0⟩)).1
  else if seg.type = "bface" then (seg.ParseMedia (.bface ⟨0⟩)).1
  else if seg.type = "sface" then (seg.ParseMedia (.sface ⟨0⟩)).1
  else if seg.type = "image" then (seg.ParseMedia (.image ⟨"", ""⟩)).1
  else if seg.type = "record" then (seg.ParseMedia (.record ⟨"", false, ""⟩)).1
  else if seg.type = "rps" then (seg.ParseMedia (.rps ⟨0⟩)).1
  else if seg.type = "dice" then (seg.ParseMedia (.dice ⟨0⟩)).1
  else if seg.type = "shake" then (seg.ParseMedia (.shake ⟨⟩)).1
  else if seg.type = "music" then
    (seg.ParseMedia (.music ⟨"", "", "", "", "", "", ""⟩)).1
  else if seg.type = "share" then (seg.ParseMedia (.share ⟨"", "", "", ""⟩)).1
  else if seg.type = "location" then (seg.ParseMedia (.location ⟨⟩)).1
  else if seg.type = "show" then (seg.ParseMedia (.show_ ⟨⟩)).1
  else if seg.type = "sign" then (seg.ParseMedia (.sign ⟨⟩)).1
  else if seg.type = "rich" then (seg.ParseMedia (.rich ⟨⟩)).1
  else .segment seg

/-- The kind tags the dispatch switch recognizes. -/
def recognizedKinds : List String :=
  ["text", "at", "face", "emoji", "bface", "sface", "image", "record", "rps",
   "dice", "shake", "music", "share", "location", "show", "sign", "rich"]

/-- `ParseMessageFromMessageSegments`: convert every segment by kind dispatch. -/
def ParseMessageFromMessageSegments (segs : List MessageSegment) : Message :=
  segs.map mediaFromSegment

/-- `ParseMessageFromString` (always returns a nil error). -/
def ParseMessageFromString (str : String) : Message × Option String :=
  (ParseMessageFromMessageSegments (ParseMessageSegmentsFromString str).1, none)

/-- `ParseMessageSegmentsFromArray`: the source calls `decode(msg, segs)`
passing the freshly made slice `segs` BY VALUE (not `&segs`);
`mapstructure.NewDecoder` requires its `Result` to be a pointer and returns
the error "result must be a pointer", so the slice is never written: the
function returns an empty slice and that error for every input. -/
def ParseMessageSegmentsFromArray (_msg : List MessageSegment) :
    List MessageSegment × Option String :=
  ([], some "result must be a pointer")

/-- `ParseMessageFromArray`: on a segment-parse error, return an empty
message (`NewMessage()`) and the error. -/
def ParseMessageFromArray (msg : List MessageSegment) : Message × Option String :=
  match ParseMessageSegmentsFromArray msg with
  | (_, some e) => ([], some e)
  | (segs, none) => (ParseMessageFromMessageSegments segs, none)

/-! ## Command extraction -/

/-- Go `regexp`'s Perl character class `\s` (space, tab, newline, form feed,
carriage return); `\S` is its complement. -/
def isGoSpace (c : Char) : Bool :=
  c = ' ' ∨ c = '\t' ∨ c = '\n' ∨ c = '\x0c' ∨ c = '\r'

/-- Length of the leading run of `\S` characters. -/
def leadNonSpace (s : List Char) : Nat :=
  (s.takeWhile (fun c => !isGoSpace c)).length

/-- Quoted-run alternatives `'[\s\S]*?'` and `"[\s\S]*?"`: an opening quote,
then (non-greedily) everything up to the first closing quote.  Returns the
matched token and the rest of the input. -/
def matchQuote (q : Char) (s : List Char) : Option (List Char × List Char) :=
  match s with
  | [] => none
  | c :: cs =>
    if c = q then
      match findCharIdx q cs with
      | some i => some (s.take (i + 2), cs.drop (i + 1))
      | none => none
    else none

/-- One backtracking step of the alternative `\S*\[CQ:[\s\S]*?\]\S*` with the
leading `\S*` fixed to `k` characters: `[CQ:` must follow, the non-greedy
middle runs to the first `]`, and the trailing `\S*` greedily extends the
match. -/
def tryCQAt (s : List Char) (k : Nat) : Option (List Char × List Char) :=
  if "[CQ:".data.isPrefixOf (s.drop k) then
    match findCharIdx ']' (s.drop (k + 4)) with
    | some j =>
      let stop := k + 4 + j + 1
      let t := leadNonSpace (s.drop stop)
      some (s.take (stop + t), s.drop (stop + t))
    | none => none
  else none

/-- Backtracking over the greedy leading `\S*`: longest first. -/
def tryCQ (s : List Char) : Nat → Option (List Char × List Char)
  | 0 => tryCQAt s 0
  | k + 1 =>
    match tryCQAt s (k + 1) with
    | some r => some r
    | none => tryCQ s k

/-- Leftmost-first match of the token pattern
`'[\s\S]*?'|"[\s\S]*?"|\S*\[CQ:[\s\S]*?\]\S*|\S+` at the head of `s`:
alternatives are tried in the pattern's order. -/
def matchToken (s : List Char) : Option (List Char × List Char) :=
  match matchQuote '\'' s with
  | some r => some r
  | none =>
    match matchQuote '"' s with
    | some r => some r
    | none =>
      match tryCQ s (leadNonSpace s) with
      | some r => some r
      | none =>
        let n := leadNonSpace s
        if n = 0 then none else some (s.take n, s.drop n)

/-- Fueled model of `FindAllString(s, -1)` for the token pattern: try a match
at each position, emit it and continue after it, else advance one character.
Every match is nonempty, so `fuel = s.length` never runs out. -/
def tokenizeAux : Nat → List Char → List (List Char)
  | 0, _ => []
  | _, [] => []
  | fuel + 1, c :: cs =>
    match matchToken (c :: cs) with
    | some (tok, rest) => tok :: tokenizeAux fuel rest
    | none => tokenizeAux fuel cs

/-- All tokens of the command pattern, left to right. -/
def tokenize (s : List Char) : List (List Char) :=
  tokenizeAux s.length s

/-- Per-argument post-processing of `Command`: trim surrounding quote
characters, then undo the backslash-escape sentinels. -/
def restoreArg (a : String) : String :=
  let a := goTrim a "'\""
  let a := replaceStr a "\\0x27" "'"
  let a := replaceStr a "\\0x22" "\""
  let a := replaceStr a "\\0x5c" "\\"
  a

/-- `Command`: the package-level `StrictCommand` flag is passed explicitly as
`strict`.  Backslash-escaped `\\`, `\"`, `\'` are first replaced by sentinel
tokens, the string is tokenized, the first token is the command (its leading
`/` stripped in strict mode; in strict mode a first token without `/` yields
zero values), and the remaining tokens become arguments after quote trimming
and sentinel restoration. -/
def Command (strict : Bool) (str : String) : String × List String :=
  let s := replaceStr str "\\\\" "\\0x5c"
  let s := replaceStr s "\\\"" "\\0x22"
  let s := replaceStr s "\\'" "\\0x27"
  match (tokenize s.data).map String.mk with
  | [] => ("", [])
  | t0 :: rest =>
    if t0.data = [] then ("", [])
    else if strict then
      match t0.data with
      | '/' :: cmd => (String.mk cmd, rest.map restoreArg)
      | _ => ("", [])
    else (t0, rest.map restoreArg)

/-! ## Faces -/

/-- The bundled name-to-id table `stringFace`. -/
def stringFace : List (String × Int) :=
  [("微笑", 14), ("撇嘴", 1), ("色", 2), ("发呆", 3), ("得意", 4), ("流泪", 5),
   ("害羞", 6), ("闭嘴", 7), ("睡", 8), ("大哭", 9), ("尴尬", 10), ("发怒", 11),
   ("调皮", 12), ("呲牙", 13), ("惊讶", 0), ("难过", 15), ("酷", 16), ("冷汗", 96),
   ("抓狂", 18), ("吐", 19), ("偷笑", 20), ("可爱", 21), ("白眼", 22), ("傲慢", 23),
   ("饥饿", 24), ("困", 25), ("惊恐", 26), ("流汗", 27), ("憨笑", 28), ("大兵", 29),
   ("奋斗", 30), ("咒骂", 31), ("疑问", 32), ("嘘", 33), ("晕", 34), ("折磨", 35),
   ("衰", 36), ("骷髅", 37), ("敲打", 38), ("再见", 39), ("擦汗", 97), ("抠鼻", 98),
   ("鼓掌", 99), ("糗大了", 100), ("坏笑", 101), ("左哼哼", 102), ("右哼哼", 103),
   ("哈欠", 104), ("鄙视", 105), ("委屈", 106), ("快哭了", 107), ("阴险", 108),
   ("亲亲", 109), ("吓", 110), ("可怜", 111), ("眨眼睛", 172), ("笑哭", 182),
   ("doge", 179), ("泪奔", 173), ("无奈", 174), ("托腮", 212), ("卖萌", 175),
   ("斜眼笑", 178), ("喷血", 177), ("惊喜", 180), ("骚扰", 181), ("小纠结", 176),
   ("我最美", 183), ("菜刀", 112), ("西瓜", 89), ("啤酒", 113), ("篮球", 114),
   ("乒乓", 115), ("茶", 171), ("咖啡", 60), ("饭", 61), ("猪头", 46), ("玫瑰", 63),
   ("凋谢", 64), ("示爱", 116), ("爱心", 66), ("心碎", 67), ("蛋糕", 53),
   ("闪电", 54), ("炸弹", 55), ("刀", 56), ("足球", 57), ("瓢虫", 117), ("便便", 59),
   ("月亮", 75), ("太阳", 74), ("礼物", 69), ("拥抱", 49), ("强", 76), ("弱", 77),
   ("握手", 78), ("胜利", 79), ("抱拳", 118), ("勾引", 119), ("拳头", 120),
   ("差劲", 121), ("爱你", 122), ("NO", 123), ("OK", 124), ("爱情", 42),
   ("飞吻", 85), ("跳跳", 43), ("发抖", 41), ("怄火", 86), ("转圈", 125),
   ("磕头", 126), ("回头", 127), ("跳绳", 128), ("挥手", 129), ("激动", 130),
   ("街舞", 131), ("献吻", 132), ("左太极", 133), ("右太极", 134), ("双喜", 136),
   ("鞭炮", 137), ("灯笼", 138), ("K歌", 140), ("喝彩", 144), ("祈祷", 145),
   ("爆筋", 146), ("棒棒糖", 147), ("喝奶", 148), ("飞机", 151), ("钞票", 158),
   ("药", 168), ("手枪", 169), ("蛋", 188), ("红包", 192), ("河蟹", 184),
   ("羊驼", 185), ("菊花", 190), ("幽灵", 187), ("大笑", 193), ("不开心", 194),
   ("冷漠", 197), ("呃", 198), ("好棒", 199), ("拜托", 200), ("点赞", 201),
   ("无聊", 202), ("托脸", 203), ("吃", 204), ("送花", 205), ("害怕", 206),
   ("花痴", 207), ("小样儿", 208), ("飙泪", 210), ("我不看", 211)]

/-- The bundled id-to-name table `faceString`. -/
def faceString : List (Int × String) :=
  [(14, "微笑"), (1, "撇嘴"), (2, "色"), (3, "发呆"), (4, "得意"), (5, "流泪"),
   (6, "害羞"), (7, "闭嘴"), (8, "睡"), (9, "大哭"), (10, "尴尬"), (11, "发怒"),
   (12, "调皮"), (13, "呲牙"), (0, "惊讶"), (15, "难过"), (16, "酷"), (96, "冷汗"),
   (18, "抓狂"), (19, "吐"), (20, "偷笑"), (21, "可爱"), (22, "白眼"), (23, "傲慢"),
   (24, "饥饿"), (25, "困"), (26, "惊恐"), (27, "流汗"), (28, "憨笑"), (29, "大兵"),
   (30, "奋斗"), (31, "咒骂"), (32, "疑问"), (33, "嘘"), (34, "晕"), (35, "折磨"),
   (36, "衰"), (37, "骷髅"), (38, "敲打"), (39, "再见"), (97, "擦汗"), (98, "抠鼻"),
   (99, "鼓掌"), (100, "糗大了"), (101, "坏笑"), (102, "左哼哼"), (103, "右哼哼"),
   (104, "哈欠"), (105, "鄙视"), (106, "委屈"), (107, "快哭了"), (108, "阴险"),
   (109, "亲亲"), (110, "吓"), (111, "可怜"), (172, "眨眼睛"), (182, "笑哭"),
   (179, "doge"), (173, "泪奔"), (174, "无奈"), (212, "托腮"), (175, "卖萌"),
   (178, "斜眼笑"), (177, "喷血"), (180, "惊喜"), (181, "骚扰"), (176, "小纠结"),
   (183, "我最美"), (112, "菜刀"), (89, "西瓜"), (113, "啤酒"), (114, "篮球"),
   (115, "乒乓"), (171, "茶"), (60, "咖啡"), (61, "饭"), (46, "猪头"), (63, "玫瑰"),
   (64, "凋谢"), (116, "示爱"), (66, "爱心"), (67, "心碎"), (53, "蛋糕"),
   (54, "闪电"), (55, "炸弹"), (56, "刀"), (57, "足球"), (117, "瓢虫"), (59, "便便"),
   (75, "月亮"), (74, "太阳"), (69, "礼物"), (49, "拥抱"), (76, "强"), (77, "弱"),
   (78, "握手"), (79, "胜利"), (118, "抱拳"), (119, "勾引"), (120, "拳头"),
   (121, "差劲"), (122, "爱你"), (123, "NO"), (124, "OK"), (42, "爱情"),
   (85, "飞吻"), (43, "跳跳"), (41, "发抖"), (86, "怄火"), (125, "转圈"),
   (126, "磕头"), (127, "回头"), (128, "跳绳"), (129, "挥手"), (130, "激动"),
   (131, "街舞"), (132, "献吻"), (133, "左太极"), (134, "右太极"), (136, "双喜"),
   (137, "鞭炮"), (138, "灯笼"), (140, "K歌"), (144, "喝彩"), (145, "祈祷"),
   (146, "爆筋"), (147, "棒棒糖"), (148, "喝奶"), (151, "飞机"), (158, "钞票"),
   (168, "药"), (169, "手枪"), (188, "蛋"), (192, "红包"), (184, "河蟹"),
   (185, "羊驼"), (190, "菊花"), (187, "幽灵"), (193, "大笑"), (194, "不开心"),
   (197, "冷漠"), (198, "呃"), (199, "好棒"), (200, "拜托"), (201, "点赞"),
   (202, "无聊"), (203, "托脸"), (204, "吃"), (205, "送花"), (206, "害怕"),
   (207, "花痴"), (208, "小样儿"), (210, "飙泪"), (211, "我不看")]

/-- Lookup in `stringFace`. -/
def stringFaceGet (s : String) : Option Int :=
  (stringFace.find? (fun kv => kv.1 = s)).map Prod.snd

/-- Lookup in `faceString`. -/
def faceStringGet (i : Int) : Option String :=
  (faceString.find? (fun kv => kv.1 = i)).map Prod.snd

/-- `NewFaceFromName`: trim `/` from both ends, then look the name up in
`stringFace`; an unknown name yields the zero face and "Unknown face". -/
def NewFaceFromName (str : String) : Face × Option String :=
  let str := goTrim str "/"
  match stringFaceGet str with
  | some fi => (⟨fi⟩, none)
  | none => (⟨0⟩, some "Unknown face")

/-- `Face.Name`: reverse lookup in `faceString`; an unknown id yields the id's
decimal string (`strconv.Itoa`) and "Unknown face". -/
def Face.Name (f : Face) : String × Option String :=
  match faceStringGet f.FaceID with
  | some str => (str, none)
  | none => (toString f.FaceID, some "Unknown face")

/-! ## Derived definitions used by the round-trip statements -/

/-- The raw `key=value` text of one field as it appears inside a marker body. -/
def fieldRaw (kv : String × String) : List Char :=
  kv.1.data ++ '=' :: kv.2.data

/-- The body `kind,k=v,...` of a marker built from raw field texts. -/
def rawBody (kind : String) (kvs : List (String × String)) : List Char :=
  joinChar ',' (kind.data :: kvs.map fieldRaw)

/-- A well-formed marker string `[CQ:kind,k=v,...]` with raw field texts. -/
def rawMarker (kind : String) (kvs : List (String × String)) : String :=
  String.mk ('[' :: 'C' :: 'Q' :: ':' :: (rawBody kind kvs ++ [']']))

/-- The segment data `ParseCQCode` builds from raw fields: values unescaped. -/
def decodeKvs (kvs : List (String × String)) : List (String × String) :=
  kvs.map (fun kv => (kv.1, DecodeCQCodeText kv.2))

/-- Canonical raw fields: keys are free of `,` and `=`, values are free of `,`
and invariant under unescape-then-reescape, and keys are pairwise distinct. -/
def canonicalKvs (kvs : List (String × String)) : Prop :=
  (∀ kv ∈ kvs, ',' ∉ kv.1.data ∧ '=' ∉ kv.1.data ∧ ',' ∉ kv.2.data ∧
    EncodeCQCodeText (DecodeCQCodeText kv.2) = kv.2) ∧
  (kvs.map Prod.fst).Nodup

instance (kvs : List (String × String)) : Decidable (canonicalKvs kvs) := by
  unfold canonicalKvs
  infer_instance

/-- The zero value of each variant, as allocated by the decoding call sites. -/
def zeroOf : Media → Media
  | .text _ => .text ⟨""⟩
  | .at_ _ => .at_ ⟨""⟩
  | .face _ => .face ⟨0⟩
  | .emoji _ => .emoji ⟨0⟩
  | .bface _ => .bface ⟨0⟩
  | .sface _ => .sface ⟨0⟩
  | .image _ => .image ⟨"", ""⟩
  | .record _ => .record ⟨"", false, ""⟩
  | .rps _ => .rps ⟨0⟩
  | .dice _ => .dice ⟨0⟩
  | .shake _ => .shake ⟨⟩
  | .music _ => .music ⟨"", "", "", "", "", "", ""⟩
  | .share _ => .share ⟨"", "", "", ""⟩
  | .location _ => .location ⟨⟩
  | .show_ _ => .show_ ⟨⟩
  | .sign _ => .sign ⟨⟩
  | .rich _ => .rich ⟨⟩
  | .segment _ => .segment ⟨"", []⟩

/-- One element of every variant, populated with representative field values. -/
def representativeElements : List Media :=
  [.text ⟨"hello [world] & co"⟩,
   .at_ ⟨"all"⟩,
   .face ⟨14⟩,
   .emoji ⟨128515⟩,
   .bface ⟨7⟩,
   .sface ⟨3⟩,
   .image ⟨"a.jpg", "http://x/y.jpg"⟩,
   .record ⟨"r.amr", true, "http://u"⟩,
   .rps ⟨1⟩,
   .dice ⟨6⟩,
   .shake ⟨⟩,
   .music ⟨"163", "28949129", "http://s", "http://a", "T", "C", "http://i"⟩,
   .share ⟨"http://u", "t", "c", "http://i"⟩,
   .location ⟨⟩,
   .show_ ⟨⟩,
   .sign ⟨⟩,
   .rich ⟨⟩]

/-- Typed variants other than text and the generic segment (the targets for
which a non-well-formed string is a hard `ParseCQCode` failure). -/
def isTypedNonText : Media → Bool
  | .text _ => false
  | .segment _ => false
  | _ => true

/-- All typed variants (everything but the generic segment). -/
def isTypedVariant : Media → Bool
  | .segment _ => false
  | _ => true

/-! ## Helper lemmas: split / join / scan -/

theorem splitOnChar_ne_nil (sep : Char) (l : List Char) : splitOnChar sep l ≠ [] := by
  cases l with
  | nil => simp [splitOnChar]
  | cons c cs =>
    simp only [splitOnChar]
    split
    · simp
    · split <;> simp

theorem joinChar_cons_cons (sep c : Char) (p : List Char) (ps : List (List Char)) :
    joinChar sep ((c :: p) :: ps) = c :: joinChar sep (p :: ps) := by
  cases ps <;> simp [joinChar]

theorem joinChar_splitOnChar (sep : Char) (l : List Char) :
    joinChar sep (splitOnChar sep l) = l := by
  induction l with
  | nil => simp [splitOnChar, joinChar]
  | cons c cs ih =>
    obtain ⟨p, ps, hp⟩ : ∃ p ps, splitOnChar sep cs = p :: ps := by
      cases hsp : splitOnChar sep cs with
      | nil => exact absurd hsp (splitOnChar_ne_nil sep cs)
      | cons p ps => exact ⟨p, ps, rfl⟩
    rw [hp] at ih
    by_cases h : c = sep
    · simp only [splitOnChar, if_pos h, hp]
      cases ps <;> simp_all [joinChar]
    · simp only [splitOnChar, if_neg h, hp]
      rw [joinChar_cons_cons, ih]

theorem splitOnChar_not_mem (sep : Char) (p : List Char) (h : sep ∉ p) :
    splitOnChar sep p = [p] := by
  induction p with
  | nil => rfl
  | cons c cs ih =>
    have hc : ¬(c = sep) := fun e => h (by simp [e])
    have hcs : sep ∉ cs := fun hm => h (List.mem_cons_of_mem _ hm)
    simp [splitOnChar, hc, ih hcs]

theorem splitOnChar_append (sep : Char) (xs rest : List Char) (h : sep ∉ xs) :
    splitOnChar sep (xs ++ sep :: rest) = xs :: splitOnChar sep rest := by
  induction xs with
  | nil => simp [splitOnChar]
  | cons c cs ih =>
    have hc : ¬(c = sep) := fun e => h (by simp [e])
    have hcs : sep ∉ cs := fun hm => h (List.mem_cons_of_mem _ hm)
    simp [splitOnChar, hc, ih hcs]

theorem splitOnChar_joinChar (sep : Char) (parts : List (List Char))
    (hne : parts ≠ []) (h : ∀ x ∈ parts, sep ∉ x) :
    splitOnChar sep (joinChar sep parts) = parts := by
  induction parts with
  | nil => exact absurd rfl hne
  | cons p ps ih =>
    cases ps with
    | nil => simpa [joinChar] using splitOnChar_not_mem sep p (h p (by simp))
    | cons q qs =>
      rw [joinChar, splitOnChar_append sep p _ (h p (by simp))]
      rw [ih (by simp) (fun x hx => h x (List.mem_cons_of_mem _ hx))]

theorem not_mem_joinChar (sep c : Char) (parts : List (List Char))
    (hcs : c ≠ sep) (h : ∀ x ∈ parts, c ∉ x) : c ∉ joinChar sep parts := by
  induction parts with
  | nil => simp [joinChar]
  | cons p ps ih =>
    cases ps with
    | nil => simpa [joinChar] using h p (by simp)
    | cons q qs =>
      rw [joinChar]
      intro hm
      rcases List.mem_append.mp hm with h1 | h2
      · exact h p (by simp) h1
      · rcases List.mem_cons.mp h2 with h3 | h4
        · exact hcs h3
        · exact ih (fun x hx => h x (List.mem_cons_of_mem _ hx)) h4

theorem joinChar_cons_exists (sep : Char) (x : List Char) (xs : List (List Char)) :
    ∃ t, joinChar sep (x :: xs) = x ++ t := by
  cases xs with
  | nil => exact ⟨[], by simp [joinChar]⟩
  | cons q qs => exact ⟨sep :: joinChar sep (q :: qs), rfl⟩

theorem isPrefixOf_append_self (p r : List Char) : p.isPrefixOf (p ++ r) = true := by
  induction p with
  | nil => simp [List.isPrefixOf]
  | cons c cs ih => simp [List.isPrefixOf, ih]

theorem findSub_of_prefix (pat s : List Char) (h : pat.isPrefixOf s = true) :
    findSub pat s = some 0 := by
  cases s <;> simp [findSub, h]

theorem findCharIdx_append (c : Char) (xs rest : List Char) (h : c ∉ xs) :
    findCharIdx c (xs ++ c :: rest) = some xs.length := by
  induction xs with
  | nil => simp [findCharIdx]
  | cons d ds ih =>
    have hd : ¬(d = c) := fun e => h (by simp [e])
    simp [findCharIdx, hd, ih (fun hm => h (List.mem_cons_of_mem _ hm))]

theorem getLast?_append_singleton {α : Type} (l : List α) (x : α) :
    (l ++ [x]).getLast? = some x := by
  induction l with
  | nil => rfl
  | cons c cs ih =>
    rw [List.cons_append]
    cases hcs : cs ++ [x] with
    | nil => exact absurd hcs (by simp)
    | cons d ds => rw [List.getLast?_cons_cons, ← hcs, ih]

theorem dropLast_append_singleton (l : List Char) (x : Char) :
    (l ++ [x]).dropLast = l := by
  simp [List.dropLast_concat]

theorem string_data_append (a b : String) : (a ++ b).data = a.data ++ b.data := rfl

theorem string_mk_data (s : String) : String.mk s.data = s := rfl

theorem mapInsert_append (data : List (String × String)) (k v : String)
    (h : ∀ kv ∈ data, kv.1 ≠ k) : mapInsert data k v = data ++ [(k, v)] := by
  unfold mapInsert
  rw [if_neg]
  simp only [List.any_eq_true, decide_eq_true_eq, not_exists]
  intro kv hm
  exact h kv hm.1 hm.2

theorem buildStep_eq (kv : String × String) (acc : List (String × String))
    (hk1 : '=' ∉ kv.1.data) (hacc : ∀ kv' ∈ acc, Prod.fst kv' ≠ kv.1) :
    buildStep acc (fieldRaw kv) = acc ++ [(kv.1, DecodeCQCodeText kv.2)] := by
  unfold buildStep
  rw [show fieldRaw kv = kv.1.data ++ '=' :: kv.2.data from rfl,
      splitOnChar_append '=' kv.1.data kv.2.data hk1]
  simp only [List.headI, List.tail_cons]
  rw [joinChar_splitOnChar, string_mk_data, string_mk_data]
  exact mapInsert_append acc kv.1 _ hacc

theorem buildData_fold (kvs acc : List (String × String))
    (hk : ∀ kv ∈ kvs, '=' ∉ kv.1.data)
    (hnd : (kvs.map Prod.fst).Nodup)
    (hacc : ∀ kv ∈ kvs, ∀ kv' ∈ acc, Prod.fst kv' ≠ kv.1) :
    List.foldl buildStep acc (kvs.map fieldRaw) = acc ++ decodeKvs kvs := by
  induction kvs generalizing acc with
  | nil => simp [decodeKvs]
  | cons kv kvs ih =>
    have hnd0 : (kv.1 :: kvs.map Prod.fst).Nodup := by simpa using hnd
    have hnd' := List.nodup_cons.mp hnd0
    simp only [List.map_cons, List.foldl_cons]
    rw [buildStep_eq kv acc (hk kv (by simp)) (fun kv' h' => hacc kv (by simp) kv' h')]
    rw [ih (acc ++ [(kv.1, DecodeCQCodeText kv.2)])
      (fun x hx => hk x (List.mem_cons_of_mem _ hx)) hnd'.2]
    · simp [decodeKvs]
    · intro x hx kv' hkv'
      rcases List.mem_append.mp hkv' with h1 | h2
      · exact hacc x (List.mem_cons_of_mem _ hx) kv' h1
      · have he2 : kv' = (kv.1, DecodeCQCodeText kv.2) := by simpa using h2
        subst he2
        intro he
        have hx1 : x.1 ∈ kvs.map Prod.fst := List.mem_map_of_mem Prod.fst hx
        rw [← he] at hx1
        exact hnd'.1 hx1

theorem buildData_eq (kvs : List (String × String))
    (hk : ∀ kv ∈ kvs, '=' ∉ kv.1.data)
    (hnd : (kvs.map Prod.fst).Nodup) :
    buildData (kvs.map fieldRaw) = decodeKvs kvs := by
  have := buildData_fold kvs [] hk hnd (by simp)
  simpa [buildData] using this

theorem string_ext (a b : String) (h : a.data = b.data) : a = b := by
  cases a
  cases b
  cases h
  rfl

theorem rawBody_length_pos (kind : String) (kvs : List (String × String))
    (h : kind.data ≠ []) : 0 < (rawBody kind kvs).length := by
  obtain ⟨t, ht⟩ := joinChar_cons_exists ',' kind.data (kvs.map fieldRaw)
  have hlen : 0 < kind.data.length := List.length_pos.mpr h
  unfold rawBody
  rw [ht, List.length_append]
  omega

theorem wellFormed_rawMarker (kind : String) (kvs : List (String × String))
    (h : kind.data ≠ []) : wellFormedCQ (rawMarker kind kvs) = true := by
  have h1 : 5 < (rawMarker kind kvs).length := by
    have := rawBody_length_pos kind kvs h
    show 5 < ('[' :: 'C' :: 'Q' :: ':' :: (rawBody kind kvs ++ [']'])).length
    simp only [List.length_cons, List.length_append, List.length_singleton]
    omega
  have h2 : (rawMarker kind kvs).data.take 4 = "[CQ:".data := rfl
  have h3 : (rawMarker kind kvs).data.getLast? = some ']' := by
    show ('[' :: 'C' :: 'Q' :: ':' :: (rawBody kind kvs ++ [']'])).getLast? = some ']'
    rw [show '[' :: 'C' :: 'Q' :: ':' :: (rawBody kind kvs ++ [']'])
        = ('[' :: 'C' :: 'Q' :: ':' :: rawBody kind kvs) ++ [']'] by simp]
    exact getLast?_append_singleton _ _
  simp only [wellFormedCQ, Bool.and_eq_true, decide_eq_true_eq]
  exact ⟨⟨h1, h2⟩, h3⟩

theorem parseCQ_rawMarker (kind : String) (kvs : List (String × String))
    (hkind : kind.data ≠ []) (hkc : ',' ∉ kind.data) (hc : canonicalKvs kvs)
    (ms0 : MessageSegment) :
    ParseCQCode (rawMarker kind kvs) (.segment ms0) =
      (.segment ⟨kind, decodeKvs kvs⟩, none) := by
  have hwf := wellFormed_rawMarker kind kvs hkind
  have hinner : ((rawMarker kind kvs).data.drop 4).dropLast = rawBody kind kvs := by
    rw [show (rawMarker kind kvs).data.drop 4 = rawBody kind kvs ++ [']'] from rfl]
    exact dropLast_append_singleton _ _
  have hsplit : splitOnChar ',' (rawBody kind kvs) = kind.data :: kvs.map fieldRaw := by
    unfold rawBody
    apply splitOnChar_joinChar
    · simp
    · intro x hx
      rcases List.mem_cons.mp hx with h1 | h2
      · rw [h1]; exact hkc
      · obtain ⟨kv, hkv, rfl⟩ := List.mem_map.mp h2
        intro hm
        rcases List.mem_append.mp hm with ha | hb
        · exact (hc.1 kv hkv).1 ha
        · rcases List.mem_cons.mp hb with hcq | hcr
          · exact absurd hcq (by decide)
          · exact (hc.1 kv hkv).2.2.1 hcr
  unfold ParseCQCode
  rw [hwf, if_neg (by simp)]
  simp only [hinner, hsplit, List.headI, List.tail_cons, string_mk_data]
  rw [buildData_eq kvs (fun kv hm => (hc.1 kv hm).2.1) hc.2]
  rfl

theorem formatCQ_rawMarker (kind : String) (kvs : List (String × String))
    (hkind : kind ≠ "text") (hc : canonicalKvs kvs) :
    FormatCQCode (.segment ⟨kind, decodeKvs kvs⟩) = rawMarker kind kvs := by
  have hfields : ((decodeKvs kvs).map renderField).map String.data = kvs.map fieldRaw := by
    unfold decodeKvs
    rw [List.map_map, List.map_map]
    apply List.map_congr_left
    intro kv hkv
    show (renderField (kv.1, DecodeCQCodeText kv.2)).data = fieldRaw kv
    unfold renderField fieldRaw
    rw [string_data_append, string_data_append]
    rw [show (kv.1, DecodeCQCodeText kv.2).2 = DecodeCQCodeText kv.2 from rfl,
        (hc.1 kv hkv).2.2.2]
    simp
  show (if kind = "text" then _ else fmtMarker kind ((decodeKvs kvs).map renderField))
      = rawMarker kind kvs
  rw [if_neg hkind]
  apply string_ext
  unfold fmtMarker rawMarker
  rw [string_data_append, string_data_append]
  simp only [List.map_cons, hfields]
  simp [rawBody]

theorem scanSegs_nil (fuel : Nat) : scanSegs fuel [] = [] := by
  have h : findSub "[CQ:".data ([] : List Char) = none := rfl
  cases fuel <;> simp [scanSegs, trailingText, h]

theorem rawMarker_data_length (kind : String) (kvs : List (String × String)) :
    (rawMarker kind kvs).data.length = (rawBody kind kvs).length + 5 := by
  show ('[' :: 'C' :: 'Q' :: ':' :: (rawBody kind kvs ++ [']'])).length = _
  simp only [List.length_cons, List.length_append, List.length_singleton, List.length_nil]

theorem scanSegs_rawMarker (kind : String) (kvs : List (String × String))
    (hkind : kind.data ≠ []) (hkc : ',' ∉ kind.data)
    (hnb : ']' ∉ rawBody kind kvs) (hc : canonicalKvs kvs) :
    scanSegs (rawMarker kind kvs).data.length (rawMarker kind kvs).data
      = [⟨kind, decodeKvs kvs⟩] := by
  have hpre : "[CQ:".data.isPrefixOf (rawMarker kind kvs).data = true := by
    show List.isPrefixOf ['[', 'C', 'Q', ':']
      ('[' :: 'C' :: 'Q' :: ':' :: (rawBody kind kvs ++ [']'])) = true
    exact isPrefixOf_append_self ['[', 'C', 'Q', ':'] _
  have hfc : findCharIdx ']' ((rawMarker kind kvs).data.drop (0 + 4))
      = some (rawBody kind kvs).length := by
    rw [show (rawMarker kind kvs).data.drop (0 + 4) = rawBody kind kvs ++ [']'] from rfl]
    exact findCharIdx_append ']' _ [] hnb
  have harith : 0 + 4 + (rawBody kind kvs).length + 1 = (rawMarker kind kvs).data.length := by
    rw [rawMarker_data_length]
    omega
  have htake : ((rawMarker kind kvs).data.take
      (0 + 4 + (rawBody kind kvs).length + 1)).drop 0 = (rawMarker kind kvs).data := by
    rw [List.drop_zero, harith]
    exact List.take_length _
  have hdrop : (rawMarker kind kvs).data.drop (0 + 4 + (rawBody kind kvs).length + 1)
      = [] := by
    rw [harith]
    exact List.drop_length _
  have hseg : NewMessageSegmentFromCQCode (String.mk (rawMarker kind kvs).data)
      = (⟨kind, decodeKvs kvs⟩, none) := by
    rw [string_mk_data]
    unfold NewMessageSegmentFromCQCode
    rw [parseCQ_rawMarker kind kvs hkind hkc hc ⟨"", []⟩]
  rw [rawMarker_data_length,
    show (rawBody kind kvs).length + 5 = ((rawBody kind kvs).length + 4) + 1 from rfl,
    scanSegs, findSub_of_prefix _ _ hpre]
  simp only [hfc, htake, hdrop, hseg, scanSegs_nil]
  simp

theorem mediaFromSegment_unknown (seg : MessageSegment)
    (h : seg.type ∉ recognizedKinds) : mediaFromSegment seg = .segment seg := by
  simp only [recognizedKinds, List.mem_cons, List.mem_singleton, not_or] at h
  push_neg at h
  obtain ⟨h1, h2, h3, h4, h5, h6, h7, h8, h9, h10, h11, h12, h13, h14, h15, h16, h17⟩ := h
  simp [mediaFromSegment, h1, h2, h3, h4, h5, h6, h7, h8, h9, h10, h11, h12, h13,
    h14, h15, h16, h17]

theorem empty_append_str (s : String) : "" ++ s = s := rfl

theorem parseMedia_typed (seg : MessageSegment) (m : Media)
    (h : isTypedVariant m = true) :
    seg.ParseMedia m =
      (if seg.type = m.FunctionName then decodeInto seg.data m
       else ((decodeInto seg.data m).1, wrapWrongMediaType (decodeInto seg.data m).2)) := by
  cases m <;> first | rfl | simp [isTypedVariant] at h

theorem length_append_singleton {α : Type} (l : List α) (x : α) :
    List.length (l ++ [x]) = List.length l + 1 := by
  simp

theorem take_append_singleton {α : Type} (l : List α) (x : α) :
    List.take (List.length l) (l ++ [x]) = l :=
  List.take_left l [x]

/-! ## The claims -/

/-- Claim C1 (amended): decoding the encoding of every representative element
yields the element back with a nil error; and for every well-formed marker
string whose kind is not "text" and whose fields are canonical `key=value`
texts (keys free of `,`/`=` and pairwise distinct, values free of `,` and
invariant under unescape-then-reescape), re-encoding the decoded segment
reproduces the marker exactly (field order per the insertion-ordered data
model; Go's map iteration order is unspecified). -/
theorem claim1_codec_roundtrip :
    (∀ e ∈ representativeElements,
      ParseCQCode (FormatCQCode e) (zeroOf e) = (e, none)) ∧
    (∀ (kind : String) (kvs : List (String × String)),
      kind.data ≠ [] → kind ≠ "text" → ',' ∉ kind.data → canonicalKvs kvs →
      NewMessageSegmentFromCQCode (rawMarker kind kvs)
        = (⟨kind, decodeKvs kvs⟩, none) ∧
      FormatCQCode (.segment (NewMessageSegmentFromCQCode (rawMarker kind kvs)).1)
        = rawMarker kind kvs) := by
  constructor
  · decide
  · intro kind kvs h1 h2 h3 h4
    have hA : NewMessageSegmentFromCQCode (rawMarker kind kvs)
        = (⟨kind, decodeKvs kvs⟩, none) := by
      unfold NewMessageSegmentFromCQCode
      rw [parseCQ_rawMarker kind kvs h1 h3 h4 ⟨"", []⟩]
    refine ⟨hA, ?_⟩
    rw [hA]
    exact formatCQ_rawMarker kind kvs h2 h4

/-- Claim C1 counterexample: `"[CQ:text]"` is a well-formed marker string
(starts with `[CQ:`, ends with `]`, length > 5), but re-encoding its decoded
segment yields `""`, not the original string. -/
theorem claim1_counterexample :
    wellFormedCQ "[CQ:text]" = true ∧
    FormatCQCode (.segment (NewMessageSegmentFromCQCode "[CQ:text]").1) = "" ∧
    FormatCQCode (.segment (NewMessageSegmentFromCQCode "[CQ:text]").1) ≠ "[CQ:text]" := by
  decide

/-- Claim C1 witness: the round trip at the concrete face element and at the
concrete marker `[CQ:face,id=5]`. -/
theorem claim1_witness :
    ParseCQCode (FormatCQCode (.face ⟨14⟩)) (zeroOf (.face ⟨14⟩)) = (.face ⟨14⟩, none) ∧
    FormatCQCode (.segment (NewMessageSegmentFromCQCode (rawMarker "face" [("id", "5")])).1)
      = rawMarker "face" [("id", "5")] :=
  ⟨claim1_codec_roundtrip.1 (.face ⟨14⟩) (by decide),
   (claim1_codec_roundtrip.2 "face" [("id", "5")] (by decide) (by decide) (by decide)
      (by decide)).2⟩

/-- Claim C2: `"A[CQ:shake]B"` decodes to exactly the three elements
text "A", shake, text "B", in order, and re-encoding that message reproduces
the input string exactly. -/
theorem claim2_mixed_scan :
    (ParseMessageFromString "A[CQ:shake]B").1 = [.text ⟨"A"⟩, .shake ⟨⟩, .text ⟨"B"⟩] ∧
    (ParseMessageFromString "A[CQ:shake]B").2 = none ∧
    Message.CQString (ParseMessageFromString "A[CQ:shake]B").1 = "A[CQ:shake]B" := by
  decide

/-- Claim C3: with strict mode on and prefix `/`, command extraction on
`/cmd 'a b' "c d" [CQ:face,id=5]` returns command `cmd` and arguments
`["a b", "c d", "[CQ:face,id=5]"]`, with the marker preserved verbatim. -/
theorem claim3_command_split :
    Command true "/cmd 'a b' \"c d\" [CQ:face,id=5]"
      = ("cmd", ["a b", "c d", "[CQ:face,id=5]"]) := by
  decide

/-- Claim C4: decoding a segment into any specific (typed, non-segment) target
variant whose kind differs from the segment's kind yields an error whose text
starts with "wrong media type", while the returned target still carries
exactly the fields the plain field-decode copies (best-effort partial
success). -/
theorem claim4_kind_mismatch :
    ∀ (seg : MessageSegment) (m : Media), isTypedVariant m = true →
      seg.type ≠ m.FunctionName →
      (seg.ParseMedia m).1 = (decodeInto seg.data m).1 ∧
      ∃ e, (seg.ParseMedia m).2 = some e ∧
        "wrong media type".data.isPrefixOf e.data = true := by
  intro seg m hm hne
  rw [parseMedia_typed seg m hm, if_neg hne]
  refine ⟨rfl, ?_⟩
  cases hde : (decodeInto seg.data m).2 with
  | none => exact ⟨"wrong media type", by simp [wrapWrongMediaType], by decide⟩
  | some e0 =>
    refine ⟨"wrong media type: " ++ e0, by simp [wrapWrongMediaType], ?_⟩
    rw [string_data_append]
    rw [show ("wrong media type: ").data = "wrong media type".data ++ [':', ' '] from rfl]
    rw [List.append_assoc]
    exact isPrefixOf_append_self _ _

/-- Claim C4 witness: the segment parsed from `[CQ:face,id=14]` decoded into a
text target fails with "wrong media type"; and a kind-mismatched segment that
does carry a matching `text` field still gets it copied. -/
theorem claim4_witness :
    ((⟨"face", [("text", "hi")]⟩ : MessageSegment).ParseMedia (.text ⟨""⟩)).1
        = .text ⟨"hi"⟩ ∧
    (((NewMessageSegmentFromCQCode "[CQ:face,id=14]").1.ParseMedia (.text ⟨""⟩)).1
        = (decodeInto (NewMessageSegmentFromCQCode "[CQ:face,id=14]").1.data
            (.text ⟨""⟩)).1 ∧
      ∃ e, ((NewMessageSegmentFromCQCode "[CQ:face,id=14]").1.ParseMedia
            (.text ⟨""⟩)).2 = some e ∧
        "wrong media type".data.isPrefixOf e.data = true) :=
  ⟨by decide, claim4_kind_mismatch _ _ (by decide) (by decide)⟩

/-- Claim C5 (amended): for every string that is not a well-formed marker, the
strict decoder succeeds on a text target with the plain-text unescape of the
string (which does not undo the `&#44;` comma escape: `"&#91;he&#44;ym"`
yields `"[he&#44;ym"`), and fails with "invalid cqcode" on every typed
non-text target. -/
theorem claim5_invalid_marker :
    ∀ (str : String), wellFormedCQ str = false →
      (∀ t : Text, ParseCQCode str (.text t) = (.text ⟨DecodeCQText str⟩, none)) ∧
      (∀ m : Media, isTypedNonText m = true →
        ParseCQCode str m = (m, some "invalid cqcode")) := by
  intro str h
  constructor
  · intro t
    unfold ParseCQCode
    rw [h, if_pos rfl]
  · intro m hm
    unfold ParseCQCode
    rw [h, if_pos rfl]
    cases m <;> first | rfl | simp [isTypedNonText] at hm

/-- Claim C5 counterexample: the claim's example output is wrong on the code:
decoding `"&#91;he&#44;ym"` into a text target yields `"[he&#44;ym"` (the
plain-text unescape leaves `&#44;` alone), not `"[he,ym"`. -/
theorem claim5_counterexample :
    ParseCQCode "&#91;he&#44;ym" (.text ⟨""⟩) = (.text ⟨"[he&#44;ym"⟩, none) ∧
    ("[he&#44;ym" : String) ≠ "[he,ym" := by
  decide

/-- Claim C5 witness: the general statement at `"&#91;he&#44;ym"`, for a text
target and for the face target. -/
theorem claim5_witness :
    wellFormedCQ "&#91;he&#44;ym" = false ∧
    ParseCQCode "&#91;he&#44;ym" (.text ⟨""⟩)
      = (.text ⟨DecodeCQText "&#91;he&#44;ym"⟩, none) ∧
    ParseCQCode "&#91;he&#44;ym" (.face ⟨0⟩) = (.face ⟨0⟩, some "invalid cqcode") :=
  ⟨by decide,
   (claim5_invalid_marker "&#91;he&#44;ym" (by decide)).1 ⟨""⟩,
   (claim5_invalid_marker "&#91;he&#44;ym" (by decide)).2 (.face ⟨0⟩) (by decide)⟩

/-- Claim C6 (amended): a well-formed single-marker string whose kind is not a
recognized variant kind and whose body is canonical (kind and fields free of
`]`, fields canonical `key=value` texts with distinct keys) decodes to a
Message holding exactly the opaque pass-through segment (never discarded), and
re-encoding that Message reproduces the original marker string unchanged
(field order per the insertion-ordered data model). -/
theorem claim6_unknown_kind_preserved :
    ∀ (kind : String) (kvs : List (String × String)),
      kind.data ≠ [] → kind ∉ recognizedKinds →
      ',' ∉ kind.data → ']' ∉ kind.data →
      (∀ kv ∈ kvs, ']' ∉ kv.1.data ∧ ']' ∉ kv.2.data) →
      canonicalKvs kvs →
      (ParseMessageFromString (rawMarker kind kvs)).1
          = [.segment ⟨kind, decodeKvs kvs⟩] ∧
      Message.CQString (ParseMessageFromString (rawMarker kind kvs)).1
          = rawMarker kind kvs := by
  intro kind kvs h1 h2 h3 h4 h5 h6
  have hnb : ']' ∉ rawBody kind kvs := by
    apply not_mem_joinChar _ _ _ (by decide)
    intro x hx
    rcases List.mem_cons.mp hx with ha | hb
    · rw [ha]; exact h4
    · obtain ⟨kv, hkv, rfl⟩ := List.mem_map.mp hb
      intro hm
      rcases List.mem_append.mp hm with hc1 | hc2
      · exact (h5 kv hkv).1 hc1
      · rcases List.mem_cons.mp hc2 with hd | he
        · exact absurd hd (by decide)
        · exact (h5 kv hkv).2 he
  have hscan := scanSegs_rawMarker kind kvs h1 h3 hnb h6
  have hkind_text : kind ≠ "text" := fun he => h2 (by rw [he]; simp [recognizedKinds])
  have hmsg : (ParseMessageFromString (rawMarker kind kvs)).1
      = [.segment ⟨kind, decodeKvs kvs⟩] := by
    show ParseMessageFromMessageSegments
        (scanSegs (rawMarker kind kvs).data.length (rawMarker kind kvs).data) = _
    rw [hscan]
    show [mediaFromSegment ⟨kind, decodeKvs kvs⟩] = _
    rw [mediaFromSegment_unknown ⟨kind, decodeKvs kvs⟩ h2]
  refine ⟨hmsg, ?_⟩
  rw [hmsg]
  show "" ++ FormatCQCode (.segment ⟨kind, decodeKvs kvs⟩) = _
  rw [empty_append_str]
  exact formatCQ_rawMarker kind kvs hkind_text h6

/-- Claim C6 counterexample: `"[CQ:zzz,x]"` is a well-formed marker with the
unrecognized kind `zzz`, yet its decode-then-re-encode cycle yields
`"[CQ:zzz,x=]"`, not the original string. -/
theorem claim6_counterexample :
    wellFormedCQ "[CQ:zzz,x]" = true ∧
    "zzz" ∉ recognizedKinds ∧
    Message.CQString (ParseMessageFromString "[CQ:zzz,x]").1 = "[CQ:zzz,x=]" ∧
    ("[CQ:zzz,x=]" : String) ≠ "[CQ:zzz,x]" := by
  decide

/-- Claim C6 witness: the preserved round trip at the concrete unknown-kind
marker `[CQ:zzz,a=1]`. -/
theorem claim6_witness :
    (ParseMessageFromString (rawMarker "zzz" [("a", "1")])).1
        = [.segment ⟨"zzz", decodeKvs [("a", "1")]⟩] ∧
    Message.CQString (ParseMessageFromString (rawMarker "zzz" [("a", "1")])).1
        = rawMarker "zzz" [("a", "1")] :=
  claim6_unknown_kind_preserved "zzz" [("a", "1")] (by decide) (by decide) (by decide)
    (by decide) (by decide) (by decide)

/-- Claim C7: the array-to-Message path never succeeds: `decode(msg, segs)`
receives the result slice by value, `mapstructure` rejects a non-pointer
result, and `ParseMessageFromArray` therefore returns an empty message and
the error "result must be a pointer" for every input array, contradicting the
claimed non-empty, error-free conversion. -/
theorem claim7_array_path :
    ∀ (msg : List MessageSegment),
      ParseMessageFromArray msg = ([], some "result must be a pointer") := by
  intro msg
  rfl

/-- Claim C8: plain-text escaping of `"[,]&"` yields exactly
`"&#91;,&#93;&amp;"` (comma untouched), and unescaping that yields back
`"[,]&"`. -/
theorem claim8_escape_roundtrip :
    EncodeCQText "[,]&" = "&#91;,&#93;&amp;" ∧
    DecodeCQText "&#91;,&#93;&amp;" = "[,]&" := by
  decide

/-- Claim C9 (amended): the face-by-name constructor succeeds with the mapped
id exactly when the name, after trimming leading/trailing `/` characters, is
in the bundled table (table names contain no `/`, so table names themselves
are unaffected), and fails with "Unknown face" otherwise; the id-to-name
lookup fails with "Unknown face" for every id outside the table while
returning the id's decimal string as fallback. -/
theorem claim9_face_lookup :
    ∀ (s : String) (i : Int) (f : Int) (nm : String),
      (stringFaceGet (goTrim s "/") = some i → NewFaceFromName s = (⟨i⟩, none)) ∧
      (stringFaceGet (goTrim s "/") = none →
        NewFaceFromName s = (⟨0⟩, some "Unknown face")) ∧
      (faceStringGet f = some nm → Face.Name ⟨f⟩ = (nm, none)) ∧
      (faceStringGet f = none → Face.Name ⟨f⟩ = (toString f, some "Unknown face")) := by
  intro s i f nm
  refine ⟨?_, ?_, ?_, ?_⟩ <;> intro h <;> simp [NewFaceFromName, Face.Name, h]

/-- Claim C9 counterexample: `"/微笑"` is outside the bundled name table, yet
the constructor succeeds (it trims `/` first), contradicting "fails for every
name outside the table". -/
theorem claim9_counterexample :
    NewFaceFromName "/微笑" = (⟨14⟩, none) ∧ stringFaceGet "/微笑" = none := by
  decide

/-- Claim C9 witness: the lookup behavior at the known name `微笑` and the
unknown id 1000. -/
theorem claim9_witness :
    NewFaceFromName "微笑" = (⟨14⟩, none) ∧
    Face.Name ⟨1000⟩ = ("1000", some "Unknown face") :=
  ⟨(claim9_face_lookup "微笑" 14 1000 "").1 (by decide),
   ((claim9_face_lookup "微笑" 14 1000 "").2.2.2 (by decide)).trans (by decide)⟩

/-- Claim C10: `Append` always returns a nil error, and afterwards the message
has exactly one more element, with the appended media last and all previous
elements unchanged, in order. -/
theorem claim10_append_frame :
    ∀ (m : Message) (x : Media),
      m.Append x = (List.append m [x], none) ∧
      List.length (m.Append x).1 = List.length m + 1 ∧
      List.getLast? (m.Append x).1 = some x ∧
      List.take (List.length m) (m.Append x).1 = m := by
  intro m x
  exact ⟨rfl, length_append_singleton m x, getLast?_append_singleton m x,
    take_append_singleton m x⟩
